import Mathlib

/-!
# Verification of the SmartResizer node

A shallow embedding of `src/SmartResizer/SmartResizer.py` (the `process`
method of the `SmartResizer` class) and proofs about it.

Modelling conventions:
* Python float arithmetic is embedded as exact rational arithmetic (`ℚ`).
* Python `int(x)` (truncation toward zero, used for scaled dimensions) is
  `truncToward0`; Python `round` (half-to-even, used by PIL when it converts
  the float crop box to integer pixel coordinates) is `pyRound`.
* The Lanczos resampling primitive is a black box: it is a parameter
  `R : Resample` giving arbitrary pixel contents, while the output size and
  mode (channel count) follow PIL's `Image.resize` contract — the requested
  size, the source's mode.
* An image is a `width × height × channels` grid of rational samples; a batch
  is a rectangular tensor, so all images in a batch share one `(width,
  height, channels)` triple, plus one pixel function per image.
-/

namespace SmartResizer

/-- Truncation toward zero, the behaviour of Python's `int()` (and of numpy's
`astype` from float to integer) on a real value. -/
def truncToward0 (q : ℚ) : ℤ := if 0 ≤ q then ⌊q⌋ else -⌊-q⌋

/-- Python's built-in `round`: round half to even (banker's rounding).  PIL's
`Image.crop` applies it to each float coordinate of the crop box. -/
def pyRound (q : ℚ) : ℤ := if Int.fract q = 1 / 2 ∧ Even ⌊q⌋ then ⌊q⌋ else round q

/-- The aspect ratio computed at the top of `SmartResizer.process`
(lines 49–53): `original_width / original_height`, with the defensive
fallback to `1.0` when either dimension is zero. -/
def aspectRatio (w h : ℕ) : ℚ := if h = 0 ∨ w = 0 then 1 else (w : ℚ) / h

/-- `ar_square` (line 55). -/
def arSquare : ℚ := 1

/-- `ar_wide_landscape = 16 / 9` (line 56). -/
def arWideLandscape : ℚ := 16 / 9

/-- `ar_wide_portrait = 9 / 16` (line 57). -/
def arWidePortrait : ℚ := 9 / 16

/-- `diff_to_square = abs(aspect_ratio - ar_square)` (line 58). -/
def diffToSquare (a : ℚ) : ℚ := |a - arSquare|

/-- `diff_to_wide = min(abs(aspect_ratio - ar_wide_landscape),
abs(aspect_ratio - ar_wide_portrait))` (line 59). -/
def diffToWide (a : ℚ) : ℚ := min |a - arWideLandscape| |a - arWidePortrait|

/-- `is_square_ish = diff_to_square < diff_to_wide` (line 60). -/
def isSquareIsh (a : ℚ) : Bool := decide (diffToSquare a < diffToWide a)

/-- Step 2 of `process` (lines 65–81): target dimensions start as `(0, 0)` and
are overwritten only when the preset string matches `"480p"` or `"720p"`;
orientation is portrait when `original_width < original_height`. -/
def selectTarget (preset : String) (sq : Bool) (w h : ℕ) : ℕ × ℕ :=
  if preset = "480p" then
    if sq then (512, 512)
    else if w < h then (480, 852) else (852, 480)
  else if preset = "720p" then
    if sq then (768, 768)
    else if w < h then (720, 1280) else (1280, 720)
  else (0, 0)

/-- Pad-mode scaled dimensions (lines 100–110): aspect ratios with zero-guards,
then fit to the target width when the original is wider than the target,
otherwise fit to the target height; `int()` truncation on the free axis. -/
def padScaled (w h tw th : ℕ) : ℕ × ℕ :=
  let oar : ℚ := if h ≠ 0 then (w : ℚ) / h else 1
  let tar : ℚ := if th ≠ 0 then (tw : ℚ) / th else 1
  if oar > tar then (tw, (truncToward0 ((tw : ℚ) / oar)).toNat)
  else ((truncToward0 ((th : ℚ) * oar)).toNat, th)

/-- Crop-mode pre-crop dimensions (lines 129–134): scale so that the target is
covered, `int()` truncation on the free axis.  The Python code has no
zero-guards here; the claims about this function only concern positive
dimensions and supported presets, where every divisor is nonzero. -/
def cropScaled (w h tw th : ℕ) : ℕ × ℕ :=
  if (w : ℚ) / h > (tw : ℚ) / th then
    ((truncToward0 ((w : ℚ) * ((th : ℚ) / h))).toNat, th)
  else (tw, (truncToward0 ((h : ℚ) * ((tw : ℚ) / w))).toNat)

/-- The real-valued crop box (lines 136–139):
`(left, top, right, bottom)` for pre-crop size `(nw, nh)` and target
`(tw, th)`. -/
def cropBox (nw nh tw th : ℕ) : ℚ × ℚ × ℚ × ℚ :=
  (((nw : ℚ) - tw) / 2, ((nh : ℚ) - th) / 2, ((nw : ℚ) + tw) / 2, ((nh : ℚ) + th) / 2)

/-- An image buffer: dimensions, channel count, and a pixel grid
(`pix x y c`, coordinates outside the grid are junk). -/
structure Img where
  width : ℕ
  height : ℕ
  channels : ℕ
  pix : ℕ → ℕ → ℕ → ℚ

/-- The pixel contents produced by the black-box Lanczos resampler, as a
function of the source image and the requested size. -/
def Resample : Type := Img → ℕ → ℕ → ℕ → ℕ → ℕ → ℚ

/-- PIL's `Image.resize` contract: the result has exactly the requested size
and the source's mode (channel count); its pixel contents come from the
black-box resampler. -/
def resampleTo (R : Resample) (img : Img) (w h : ℕ) : Img :=
  ⟨w, h, img.channels, R img w h⟩

/-- Lines 113–123: a black `'RGB'` canvas of the target size (all samples `0`,
3 channels) with `src` pasted at offset `(px, py)`; pixels outside the pasted
rectangle keep the canvas value `0`. -/
def pasteOnBlack (tw th : ℕ) (src : Img) (px py : ℤ) : Img where
  width := tw
  height := th
  channels := 3
  pix := fun x y c =>
    if px ≤ (x : ℤ) ∧ (x : ℤ) < px + src.width ∧ py ≤ (y : ℤ) ∧ (y : ℤ) < py + src.height
    then src.pix ((x : ℤ) - px).toNat ((y : ℤ) - py).toNat c
    else 0

/-- Pad branch of the per-image loop (lines 95–124): resize to the pad-scaled
dimensions, then paste centred (Python `//`, i.e. floor division) onto the
black RGB canvas. -/
def padTransform (R : Resample) (tw th : ℕ) (img : Img) : Img :=
  let sw := (padScaled img.width img.height tw th).1
  let sh := (padScaled img.width img.height tw th).2
  let resized := resampleTo R img sw sh
  pasteOnBlack tw th resized (((tw : ℤ) - sw).fdiv 2) (((th : ℤ) - sh).fdiv 2)

/-- Crop branch of the per-image loop (lines 126–144): resize to the covering
dimensions, then `Image.crop` with the real-valued box — PIL rounds each
coordinate with Python `round` and the result has size
`(x1 - x0, y1 - y0)` with pixel `(x, y)` read from `(x + x0, y + y0)`. -/
def cropTransform (R : Resample) (tw th : ℕ) (img : Img) : Img :=
  let nw := (cropScaled img.width img.height tw th).1
  let nh := (cropScaled img.width img.height tw th).2
  let resized := resampleTo R img nw nh
  let box := cropBox nw nh tw th
  let x0 := pyRound box.1
  let y0 := pyRound box.2.1
  let x1 := pyRound box.2.2.1
  let y1 := pyRound box.2.2.2
  ⟨(x1 - x0).toNat, (y1 - y0).toNat, resized.channels,
    fun x y c => resized.pix ((x : ℤ) + x0).toNat ((y : ℤ) + y0).toNat c⟩

/-- An input batch: a rectangular tensor, i.e. shared dimensions and channel
count plus one pixel function per image. -/
structure Batch where
  width : ℕ
  height : ℕ
  channels : ℕ
  images : List (ℕ → ℕ → ℕ → ℚ)

/-- The whole of `SmartResizer.process`: classify the batch aspect ratio,
select the target from the preset table, then map the pad or crop transform
over the batch; returns the output list together with the `width` and
`height` scalar outputs. -/
def process (R : Resample) (b : Batch) (preset : String) (padImage : Bool) :
    List Img × ℕ × ℕ :=
  let sq := isSquareIsh (aspectRatio b.width b.height)
  let t := selectTarget preset sq b.width b.height
  let f : Img → Img :=
    if padImage then padTransform R t.1 t.2 else cropTransform R t.1 t.2
  (b.images.map fun p => f ⟨b.width, b.height, b.channels, p⟩, t.1, t.2)

/-- Line 90: the uint8 sample fed to PIL is
`np.clip(255. * x, 0, 255).astype(np.uint8)` — clip then truncate. -/
def toByte (x : ℚ) : ℤ := truncToward0 (min (max (255 * x) 0) 255)

/-- Line 146: the float sample recovered from a byte is `byte / 255.0`. -/
def fromByte (b : ℤ) : ℚ := (b : ℚ) / 255

/-- The byte as the spec's words describe it (refinement reference, not from
the source): `round(clip(x, 0, 1) * 255)` with Python rounding. -/
def specByte (x : ℚ) : ℤ := pyRound (min (max x 0) 1 * 255)

/-- A concrete trivial resampler (all output samples `0`), used to evaluate
the pipeline at concrete inputs. -/
def R0 : Resample := fun _ _ _ _ _ _ => 0

/-- A concrete 3-channel single-image 100×50 batch. -/
def B0 : Batch := ⟨100, 50, 3, [fun _ _ _ => 1]⟩

/-- A concrete 4-channel (RGBA) single-image 100×50 batch. -/
def B4 : Batch := ⟨100, 50, 4, [fun _ _ _ => 1]⟩

/-! ## Helper lemmas -/

theorem truncToward0_eq_floor (q : ℚ) (hq : 0 ≤ q) : truncToward0 q = ⌊q⌋ :=
  if_pos hq

theorem selectTarget_shape (preset : String) (sq : Bool) (w h : ℕ)
    (hp : preset = "480p" ∨ preset = "720p") :
    0 < (selectTarget preset sq w h).1 ∧ 0 < (selectTarget preset sq w h).2 ∧
      Even (selectTarget preset sq w h).1 ∧ Even (selectTarget preset sq w h).2 := by
  rcases hp with rfl | rfl <;> cases sq <;>
    by_cases hwh : w < h <;> simp [selectTarget, hwh] <;> decide

theorem pyRound_add_even (q : ℚ) (k : ℤ) (hk : Even k) :
    pyRound (q + k) = pyRound q + k := by
  unfold pyRound
  rw [Int.fract_add_int, Int.floor_add_int, round_add_int]
  by_cases hf : Int.fract q = 1 / 2
  · by_cases he : Even ⌊q⌋
    · simp [hf, he, he.add hk]
    · have h2 : ¬ Even (⌊q⌋ + k) := fun hc => he (by simpa using hc.sub hk)
      simp [hf, he, h2]
  · rw [if_neg fun h => hf h.1, if_neg fun h => hf h.1]

theorem padScaled_le (w h tw th : ℕ) (hw : 0 < w) (hh : 0 < h) (htw : 0 < tw) (hth : 0 < th) :
    (padScaled w h tw th).1 ≤ tw ∧ (padScaled w h tw th).2 ≤ th := by
  have hhq : (0 : ℚ) < h := by exact_mod_cast hh
  have hwq : (0 : ℚ) < w := by exact_mod_cast hw
  have hthq : (0 : ℚ) < th := by exact_mod_cast hth
  have htwq : (0 : ℚ) < tw := by exact_mod_cast htw
  have hoar : (0 : ℚ) < (w : ℚ) / h := div_pos hwq hhq
  have hpd : padScaled w h tw th =
      if (w : ℚ) / h > (tw : ℚ) / th
      then (tw, (truncToward0 ((tw : ℚ) / ((w : ℚ) / h))).toNat)
      else ((truncToward0 ((th : ℚ) * ((w : ℚ) / h))).toNat, th) := by
    simp only [padScaled, ne_eq, hh.ne', hth.ne', not_false_eq_true, if_true]
  rw [hpd]
  by_cases hc : (w : ℚ) / h > (tw : ℚ) / th
  · rw [if_pos hc]
    have harg : (0 : ℚ) ≤ (tw : ℚ) / ((w : ℚ) / h) := le_of_lt (div_pos htwq hoar)
    rw [truncToward0_eq_floor _ harg]
    have hlt : (tw : ℚ) / ((w : ℚ) / h) < th := by
      rw [div_lt_iff₀ hoar]
      have := (div_lt_iff₀ hthq).mp hc
      linarith
    have hfl : ⌊(tw : ℚ) / ((w : ℚ) / h)⌋ ≤ (th : ℤ) := by
      have := Int.floor_le_floor (le_of_lt hlt)
      rwa [Int.floor_natCast] at this
    exact ⟨le_refl _, by omega⟩
  · rw [if_neg hc]
    have hle : (w : ℚ) / h ≤ (tw : ℚ) / th := not_lt.mp hc
    have harg : (0 : ℚ) ≤ (th : ℚ) * ((w : ℚ) / h) := le_of_lt (mul_pos hthq hoar)
    rw [truncToward0_eq_floor _ harg]
    have hlt : (th : ℚ) * ((w : ℚ) / h) ≤ tw := by
      have h1 : (th : ℚ) * ((w : ℚ) / h) ≤ (th : ℚ) * ((tw : ℚ) / th) :=
        mul_le_mul_of_nonneg_left hle (le_of_lt hthq)
      have h2 : (th : ℚ) * ((tw : ℚ) / th) = tw := by
        field_simp
      linarith
    have hfl : ⌊(th : ℚ) * ((w : ℚ) / h)⌋ ≤ (tw : ℤ) := by
      have := Int.floor_le_floor hlt
      rwa [Int.floor_natCast] at this
    exact ⟨by omega, le_refl _⟩

theorem cropScaled_ge (w h tw th : ℕ) (hw : 0 < w) (hh : 0 < h) (htw : 0 < tw) (hth : 0 < th) :
    tw ≤ (cropScaled w h tw th).1 ∧ th ≤ (cropScaled w h tw th).2 := by
  have hhq : (0 : ℚ) < h := by exact_mod_cast hh
  have hwq : (0 : ℚ) < w := by exact_mod_cast hw
  have hthq : (0 : ℚ) < th := by exact_mod_cast hth
  have htwq : (0 : ℚ) < tw := by exact_mod_cast htw
  unfold cropScaled
  by_cases hc : (w : ℚ) / h > (tw : ℚ) / th
  · rw [if_pos hc]
    have heq : (w : ℚ) * ((th : ℚ) / h) = (w : ℚ) / h * th := by ring
    have harg : (0 : ℚ) ≤ (w : ℚ) * ((th : ℚ) / h) := by
      rw [heq]; exact le_of_lt (mul_pos (div_pos hwq hhq) hthq)
    rw [truncToward0_eq_floor _ harg]
    have hge : (tw : ℚ) ≤ (w : ℚ) * ((th : ℚ) / h) := by
      rw [heq]
      have := (div_lt_iff₀ hthq).mp hc
      linarith
    have hfl : (tw : ℤ) ≤ ⌊(w : ℚ) * ((th : ℚ) / h)⌋ := by
      rw [Int.le_floor]
      exact_mod_cast hge
    exact ⟨by omega, le_refl _⟩
  · rw [if_neg hc]
    have hle : (w : ℚ) / h ≤ (tw : ℚ) / th := not_lt.mp hc
    have h1 : (w : ℚ) * th ≤ (tw : ℚ) * h := (div_le_div_iff₀ hhq hthq).mp hle
    have harg : (0 : ℚ) ≤ (h : ℚ) * ((tw : ℚ) / w) :=
      le_of_lt (mul_pos hhq (div_pos htwq hwq))
    rw [truncToward0_eq_floor _ harg]
    have hge : (th : ℚ) ≤ (h : ℚ) * ((tw : ℚ) / w) := by
      rw [mul_div_assoc', le_div_iff₀ hwq]
      linarith
    have hfl : (th : ℤ) ≤ ⌊(h : ℚ) * ((tw : ℚ) / w)⌋ := by
      rw [Int.le_floor]
      exact_mod_cast hge
    exact ⟨le_refl _, by omega⟩

/-- C4: aspect classification computes `diff_square = |aspect - 1|` and
`diff_wide = min (|aspect - 16/9|) (|aspect - 9/16|)` and sets
`is_square_ish` by the strict comparison `diff_square < diff_wide`; hence
aspect `1` is square-ish, aspect `16/9` is not, and an aspect exactly
equidistant from the square and wide references is not square-ish (ties go
to wide). -/
theorem C4_aspect_classification :
    (∀ a : ℚ, diffToSquare a = |a - 1|) ∧
    (∀ a : ℚ, diffToWide a = min |a - 16 / 9| |a - 9 / 16|) ∧
    (∀ a : ℚ, isSquareIsh a = true ↔ diffToSquare a < diffToWide a) ∧
    isSquareIsh 1 = true ∧
    isSquareIsh (16 / 9) = false ∧
    (∀ a : ℚ, diffToSquare a = diffToWide a → isSquareIsh a = false) := by
  refine ⟨fun a => rfl, fun a => rfl, fun a => by simp [isSquareIsh], ?_, ?_, fun a hab => ?_⟩
  · norm_num [isSquareIsh, diffToSquare, diffToWide, arSquare, arWideLandscape, arWidePortrait,
      min_def, abs_of_nonneg, abs_of_nonpos]
  · norm_num [isSquareIsh, diffToSquare, diffToWide, arSquare, arWideLandscape, arWidePortrait,
      min_def, abs_of_nonneg, abs_of_nonpos]
  · simp [isSquareIsh, hab]

/-- Witness for C4 at the concrete tie point `25/32`, exactly halfway
between `9/16` and `1`. -/
theorem C4_witness :
    diffToSquare (25 / 32) = diffToWide (25 / 32) ∧ isSquareIsh (25 / 32) = false := by
  have htie : diffToSquare (25 / 32) = diffToWide (25 / 32) := by
    norm_num [diffToSquare, diffToWide, arSquare, arWideLandscape, arWidePortrait,
      min_def, abs_of_nonneg, abs_of_nonpos]
  exact ⟨htie, C4_aspect_classification.2.2.2.2.2 _ htie⟩

/-- C8: for every preset string other than `"480p"` and `"720p"`, preset
selection leaves the target dimensions at their initial value `(0, 0)`; the
selection step is a total function, so it raises no distinguishable error. -/
theorem C8_unsupported_preset (preset : String) (h480 : preset ≠ "480p")
    (h720 : preset ≠ "720p") (sq : Bool) (w h : ℕ) :
    selectTarget preset sq w h = (0, 0) := by
  simp [selectTarget, h480, h720]

/-- Witness for C8 at the concrete unsupported preset `"1080p"`. -/
theorem C8_witness : selectTarget "1080p" true 100 50 = (0, 0) :=
  C8_unsupported_preset "1080p" (by decide) (by decide) true 100 50

/-- Counterexample to C2: at sample value `1/2` the code produces byte
`int(np.clip(255 * 0.5, 0, 255)) = 127` (truncation), while the claimed
`round(clip(0.5, 0, 1) * 255)` is `128`. -/
theorem C2_counterexample :
    toByte (1 / 2) = 127 ∧ specByte (1 / 2) = 128 ∧ toByte (1 / 2) ≠ specByte (1 / 2) := by
  have h1 : toByte (1 / 2) = 127 := by
    norm_num [toByte, truncToward0, min_def, max_def]
  have h2 : specByte (1 / 2) = 128 := by
    norm_num [specByte, pyRound, min_def, max_def, Int.fract, Int.even_iff, round_eq]
  exact ⟨h1, h2, by rw [h1, h2]; decide⟩

/-- C2 (amended): the byte produced by the code equals
`floor(clip(x, 0, 1) * 255)` — truncation, not rounding — and the output
float is that byte divided by `255`. -/
theorem C2_quantization (x : ℚ) :
    toByte x = ⌊min (max x 0) 1 * 255⌋ ∧
    fromByte (toByte x) = (⌊min (max x 0) 1 * 255⌋ : ℚ) / 255 := by
  have harg : (0 : ℚ) ≤ min (max x 0) 1 := le_min (le_max_right x 0) zero_le_one
  have key : toByte x = ⌊min (max x 0) 1 * 255⌋ := by
    unfold toByte
    have h1 : min (max (255 * x) 0) 255 = min (max x 0) 1 * 255 := by
      rcases le_total x 0 with hx | hx
      · rw [max_eq_right hx, max_eq_right (by linarith : 255 * x ≤ 0)]
        norm_num
      · rcases le_total x 1 with hx1 | hx1
        · rw [max_eq_left hx, max_eq_left (by linarith : (0 : ℚ) ≤ 255 * x),
            min_eq_left hx1, min_eq_left (by linarith : 255 * x ≤ 255)]
          ring
        · rw [max_eq_left hx, max_eq_left (by linarith : (0 : ℚ) ≤ 255 * x),
            min_eq_right hx1, min_eq_right (by linarith : (255 : ℚ) ≤ 255 * x)]
          norm_num
    rw [h1, truncToward0_eq_floor _ (by positivity)]
  exact ⟨key, by rw [fromByte, key]⟩

/-- C9: target selection is scale-invariant — scaling both input dimensions
by a positive integer `k` changes neither the aspect ratio, nor the
square-ish classification, nor the portrait/landscape orientation, nor the
selected target dimensions, for every preset (selection does not depend on
the mode). -/
theorem C9_scale_invariance (preset : String) (w h k : ℕ)
    (hw : 0 < w) (hh : 0 < h) (hk : 0 < k) :
    aspectRatio (k * w) (k * h) = aspectRatio w h ∧
    isSquareIsh (aspectRatio (k * w) (k * h)) = isSquareIsh (aspectRatio w h) ∧
    (k * w < k * h ↔ w < h) ∧
    selectTarget preset (isSquareIsh (aspectRatio (k * w) (k * h))) (k * w) (k * h) =
      selectTarget preset (isSquareIsh (aspectRatio w h)) w h := by
  have har : aspectRatio (k * w) (k * h) = aspectRatio w h := by
    have hkq : (k : ℚ) ≠ 0 := Nat.cast_ne_zero.mpr hk.ne'
    have hkh : ¬(k * h = 0 ∨ k * w = 0) := by
      push_neg
      exact ⟨Nat.mul_ne_zero hk.ne' hh.ne', Nat.mul_ne_zero hk.ne' hw.ne'⟩
    have hh0 : ¬(h = 0 ∨ w = 0) := by
      push_neg
      exact ⟨hh.ne', hw.ne'⟩
    rw [aspectRatio, aspectRatio, if_neg hkh, if_neg hh0]
    push_cast
    rw [mul_div_mul_left _ _ hkq]
  have hlt : k * w < k * h ↔ w < h := mul_lt_mul_left hk
  refine ⟨har, by rw [har], hlt, ?_⟩
  rw [har]
  unfold selectTarget
  simp only [hlt]

/-- Witness for C9 at the concrete input `100×50` scaled by `k = 3` with
preset `"480p"`. -/
theorem C9_witness :
    aspectRatio (3 * 100) (3 * 50) = aspectRatio 100 50 ∧
    selectTarget "480p" (isSquareIsh (aspectRatio (3 * 100) (3 * 50))) (3 * 100) (3 * 50) =
      selectTarget "480p" (isSquareIsh (aspectRatio 100 50)) 100 50 := by
  have := C9_scale_invariance "480p" 100 50 3 (by decide) (by decide) (by decide)
  exact ⟨this.1, this.2.2.2⟩

/-- C5: in pad mode, for every positive-dimension input and supported preset,
the scaled dimensions fit inside the target box (`scaled_width ≤
target_width` and `scaled_height ≤ target_height`), and they follow the
claimed formulas: when the original aspect ratio exceeds the target's,
`scaled_width = target_width` and `scaled_height` is `target_width /
original_ar` rounded down, otherwise `scaled_height = target_height` and
`scaled_width` is `target_height * original_ar` rounded down. -/
theorem C5_pad_fits (w h tw th : ℕ) (preset : String) (hw : 0 < w) (hh : 0 < h)
    (hp : preset = "480p" ∨ preset = "720p")
    (ht : (tw, th) = selectTarget preset (isSquareIsh (aspectRatio w h)) w h) :
    (padScaled w h tw th).1 ≤ tw ∧ (padScaled w h tw th).2 ≤ th ∧
    ((w : ℚ) / h > (tw : ℚ) / th →
      padScaled w h tw th = (tw, (⌊(tw : ℚ) / ((w : ℚ) / h)⌋).toNat)) ∧
    ((w : ℚ) / h ≤ (tw : ℚ) / th →
      padScaled w h tw th = ((⌊(th : ℚ) * ((w : ℚ) / h)⌋).toNat, th)) := by
  have hshape := selectTarget_shape preset (isSquareIsh (aspectRatio w h)) w h hp
  rw [← ht] at hshape
  obtain ⟨htw, hth, -, -⟩ := hshape
  have hhq : (0 : ℚ) < h := by exact_mod_cast hh
  have hwq : (0 : ℚ) < w := by exact_mod_cast hw
  have hthq : (0 : ℚ) < th := by exact_mod_cast hth
  have htwq : (0 : ℚ) < tw := by exact_mod_cast htw
  have hoar : (0 : ℚ) < (w : ℚ) / h := div_pos hwq hhq
  have hpd : padScaled w h tw th =
      if (w : ℚ) / h > (tw : ℚ) / th
      then (tw, (truncToward0 ((tw : ℚ) / ((w : ℚ) / h))).toNat)
      else ((truncToward0 ((th : ℚ) * ((w : ℚ) / h))).toNat, th) := by
    simp only [padScaled, ne_eq, hh.ne', hth.ne', not_false_eq_true, if_true]
  obtain ⟨h1, h2⟩ := padScaled_le w h tw th hw hh htw hth
  refine ⟨h1, h2, fun hc => ?_, fun hc => ?_⟩
  · rw [hpd, if_pos hc, truncToward0_eq_floor _ (le_of_lt (div_pos htwq hoar))]
  · rw [hpd, if_neg (not_lt.mpr hc),
      truncToward0_eq_floor _ (le_of_lt (mul_pos hthq hoar))]

/-- Witness for C5 at the concrete input `100×50` with preset `"480p"`
(target `852×480`). -/
theorem C5_witness :
    (padScaled 100 50 852 480).1 ≤ 852 ∧ (padScaled 100 50 852 480).2 ≤ 480 := by
  have hsel : (852, 480) = selectTarget "480p" (isSquareIsh (aspectRatio 100 50)) 100 50 := by
    have h : isSquareIsh (aspectRatio 100 50) = false := by
      norm_num [isSquareIsh, aspectRatio, diffToSquare, diffToWide, arSquare, arWideLandscape,
        arWidePortrait, min_def, abs_of_nonneg, abs_of_nonpos]
    rw [h]
    norm_num [selectTarget]
  have := C5_pad_fits 100 50 852 480 "480p" (by decide) (by decide) (Or.inl rfl) hsel
  exact ⟨this.1, this.2.1⟩

/-- C6: in crop mode, for every positive-dimension input and supported
preset, the pre-crop scaled dimensions cover the target on both axes:
`new_width ≥ target_width` and `new_height ≥ target_height`. -/
theorem C6_crop_covers (w h tw th : ℕ) (preset : String) (hw : 0 < w) (hh : 0 < h)
    (hp : preset = "480p" ∨ preset = "720p")
    (ht : (tw, th) = selectTarget preset (isSquareIsh (aspectRatio w h)) w h) :
    tw ≤ (cropScaled w h tw th).1 ∧ th ≤ (cropScaled w h tw th).2 := by
  have hshape := selectTarget_shape preset (isSquareIsh (aspectRatio w h)) w h hp
  rw [← ht] at hshape
  exact cropScaled_ge w h tw th hw hh hshape.1 hshape.2.1

/-- Witness for C6 at the concrete input `300×900` with preset `"480p"`
(target `480×852`). -/
theorem C6_witness :
    480 ≤ (cropScaled 300 900 480 852).1 ∧ 852 ≤ (cropScaled 300 900 480 852).2 := by
  have hsel : (480, 852) = selectTarget "480p" (isSquareIsh (aspectRatio 300 900)) 300 900 := by
    have h : isSquareIsh (aspectRatio 300 900) = false := by
      norm_num [isSquareIsh, aspectRatio, diffToSquare, diffToWide, arSquare, arWideLandscape,
        arWidePortrait, min_def, abs_of_nonneg, abs_of_nonpos]
    rw [h]
    norm_num [selectTarget]
  exact C6_crop_covers 300 900 480 852 "480p" (by decide) (by decide) (Or.inl rfl) hsel

/-- C10: in crop mode, for every positive-dimension input and supported
preset, the computed crop box lies entirely within the resized image:
`left ≥ 0`, `top ≥ 0`, `right ≤ new_width` and `bottom ≤ new_height`, so the
extraction never reads outside the resampled buffer. -/
theorem C10_crop_box_in_bounds (w h tw th : ℕ) (preset : String) (hw : 0 < w) (hh : 0 < h)
    (hp : preset = "480p" ∨ preset = "720p")
    (ht : (tw, th) = selectTarget preset (isSquareIsh (aspectRatio w h)) w h) :
    0 ≤ (cropBox (cropScaled w h tw th).1 (cropScaled w h tw th).2 tw th).1 ∧
    0 ≤ (cropBox (cropScaled w h tw th).1 (cropScaled w h tw th).2 tw th).2.1 ∧
    (cropBox (cropScaled w h tw th).1 (cropScaled w h tw th).2 tw th).2.2.1 ≤
      ((cropScaled w h tw th).1 : ℚ) ∧
    (cropBox (cropScaled w h tw th).1 (cropScaled w h tw th).2 tw th).2.2.2 ≤
      ((cropScaled w h tw th).2 : ℚ) := by
  have hshape := selectTarget_shape preset (isSquareIsh (aspectRatio w h)) w h hp
  rw [← ht] at hshape
  obtain ⟨hnw, hnh⟩ := cropScaled_ge w h tw th hw hh hshape.1 hshape.2.1
  have hnwq : (tw : ℚ) ≤ ((cropScaled w h tw th).1 : ℚ) := by exact_mod_cast hnw
  have hnhq : (th : ℚ) ≤ ((cropScaled w h tw th).2 : ℚ) := by exact_mod_cast hnh
  unfold cropBox
  refine ⟨by linarith, by linarith, by linarith, by linarith⟩

/-- Witness for C10 at the concrete input `300×900` with preset `"480p"`
(pre-crop size `480×1440`). -/
theorem C10_witness :
    0 ≤ (cropBox (cropScaled 300 900 480 852).1 (cropScaled 300 900 480 852).2 480 852).1 ∧
    0 ≤ (cropBox (cropScaled 300 900 480 852).1 (cropScaled 300 900 480 852).2 480 852).2.1 ∧
    (cropBox (cropScaled 300 900 480 852).1 (cropScaled 300 900 480 852).2 480 852).2.2.1 ≤
      ((cropScaled 300 900 480 852).1 : ℚ) ∧
    (cropBox (cropScaled 300 900 480 852).1 (cropScaled 300 900 480 852).2 480 852).2.2.2 ≤
      ((cropScaled 300 900 480 852).2 : ℚ) := by
  have hsel : (480, 852) = selectTarget "480p" (isSquareIsh (aspectRatio 300 900)) 300 900 := by
    have h : isSquareIsh (aspectRatio 300 900) = false := by
      norm_num [isSquareIsh, aspectRatio, diffToSquare, diffToWide, arSquare, arWideLandscape,
        arWidePortrait, min_def, abs_of_nonneg, abs_of_nonpos]
    rw [h]
    norm_num [selectTarget]
  exact C10_crop_box_in_bounds 300 900 480 852 "480p" (by decide) (by decide) (Or.inl rfl) hsel

instance : Inhabited Img := ⟨⟨0, 0, 0, fun _ _ _ => 0⟩⟩

/-- With an even target size, rounding the two opposite crop-box edges (which
differ by exactly the target size) with Python's half-to-even `round` keeps
their distance exactly the target size. -/
theorem pyRound_crop_span (n t : ℕ) (htev : Even t) :
    pyRound (((n : ℚ) + t) / 2) - pyRound (((n : ℚ) - t) / 2) = (t : ℤ) := by
  have hq : ((n : ℚ) + t) / 2 = ((n : ℚ) - t) / 2 + ((t : ℤ) : ℚ) := by
    push_cast
    ring
  rw [hq, pyRound_add_even _ _ (by exact_mod_cast htev)]
  ring

/-- C1: for every batch with positive dimensions and a supported preset, in
both pad and crop modes every image of the output batch has dimensions
exactly equal to the selected target `(target_width, target_height)`. -/
theorem C1_output_dims (R : Resample) (b : Batch) (preset : String) (padImage : Bool)
    (hw : 0 < b.width) (hh : 0 < b.height) (hp : preset = "480p" ∨ preset = "720p") :
    ∀ out ∈ (process R b preset padImage).1,
      out.width = (process R b preset padImage).2.1 ∧
      out.height = (process R b preset padImage).2.2 := by
  intro out hout
  obtain ⟨-, -, hetw, heth⟩ :=
    selectTarget_shape preset (isSquareIsh (aspectRatio b.width b.height)) b.width b.height hp
  simp only [process] at hout ⊢
  obtain ⟨p, hpmem, rfl⟩ := List.mem_map.mp hout
  cases padImage
  · simp only [Bool.false_eq_true, if_false, cropTransform, cropBox, resampleTo]
    constructor
    · rw [pyRound_crop_span _ _ hetw]
      exact Int.toNat_natCast _
    · rw [pyRound_crop_span _ _ heth]
      exact Int.toNat_natCast _
  · simp [padTransform, pasteOnBlack]

/-- Witness for C1: the concrete 100×50 batch with preset `"480p"` in crop
mode. -/
theorem C1_witness :
    ((process R0 B0 "480p" false).1.headI).width = (process R0 B0 "480p" false).2.1 ∧
    ((process R0 B0 "480p" false).1.headI).height = (process R0 B0 "480p" false).2.2 := by
  have hmem : (process R0 B0 "480p" false).1.headI ∈ (process R0 B0 "480p" false).1 := by
    simp [process, B0]
  exact C1_output_dims R0 B0 "480p" false (by decide) (by decide) (Or.inl rfl) _ hmem

/-- C3 (amended): channel count is preserved in crop mode; in pad mode every
output image has exactly 3 channels (the pasted canvas is created as RGB),
so the channel count is preserved only for 3-channel inputs. -/
theorem C3_channels (R : Resample) (b : Batch) (preset : String) :
    (∀ out ∈ (process R b preset false).1, out.channels = b.channels) ∧
    (∀ out ∈ (process R b preset true).1, out.channels = 3) := by
  constructor <;> intro out hout <;> simp only [process] at hout <;>
    obtain ⟨p, hpmem, rfl⟩ := List.mem_map.mp hout
  · simp only [Bool.false_eq_true, if_false, cropTransform, resampleTo]
  · simp only [if_true, padTransform, pasteOnBlack]

/-- Witness for C3: a concrete 3-channel batch in crop mode keeps its
channel count. -/
theorem C3_witness :
    ((process R0 B0 "480p" false).1.headI).channels = B0.channels := by
  have hmem : (process R0 B0 "480p" false).1.headI ∈ (process R0 B0 "480p" false).1 := by
    simp [process, B0]
  exact (C3_channels R0 B0 "480p").1 _ hmem

/-- Counterexample to C3 as stated: a 4-channel (RGBA) input batch in pad
mode yields 3-channel outputs, because the canvas is created with
`Image.new('RGB', ...)`. -/
theorem C3_counterexample :
    B4.channels = 4 ∧ ((process R0 B4 "480p" true).1.headI).channels = 3 :=
  ⟨rfl, by simp [process, B4, padTransform, pasteOnBlack]⟩

/-- C7: in pad mode every output pixel outside the pasted rectangle
`[paste_x, paste_x + scaled_width) × [paste_y, paste_y + scaled_height)`,
with `paste_x = (target_width - scaled_width) // 2` and
`paste_y = (target_height - scaled_height) // 2` (floor division), is exactly
zero in every channel, for any behaviour of the black-box resampler. -/
theorem C7_pad_border_black (R : Resample) (b : Batch) (preset : String)
    (tw th sw sh : ℕ) (px py : ℤ)
    (ht : (tw, th) = selectTarget preset (isSquareIsh (aspectRatio b.width b.height))
      b.width b.height)
    (hs : (sw, sh) = padScaled b.width b.height tw th)
    (hpx : px = ((tw : ℤ) - sw).fdiv 2) (hpy : py = ((th : ℤ) - sh).fdiv 2)
    (out : Img) (hout : out ∈ (process R b preset true).1) (x y c : ℕ)
    (houtside : ¬(px ≤ (x : ℤ) ∧ (x : ℤ) < px + sw ∧ py ≤ (y : ℤ) ∧ (y : ℤ) < py + sh)) :
    out.pix x y c = 0 := by
  simp only [process] at hout
  obtain ⟨p, hpmem, rfl⟩ := List.mem_map.mp hout
  rw [← ht]
  simp only [if_true, padTransform, pasteOnBlack, resampleTo, ← hs, ← hpx, ← hpy]
  exact if_neg houtside

/-- Witness for C7: the 100×50 batch with preset `"480p"` in pad mode has
target `852×480`, scaled size `852×426`, paste offset `(0, 27)`; the corner
pixel `(0, 0)` lies in the top border and is zero. -/
theorem C7_witness :
    ((process R0 B0 "480p" true).1.headI).pix 0 0 0 = 0 := by
  have hsel : (852, 480) = selectTarget "480p" (isSquareIsh (aspectRatio 100 50)) 100 50 := by
    have h : isSquareIsh (aspectRatio 100 50) = false := by
      norm_num [isSquareIsh, aspectRatio, diffToSquare, diffToWide, arSquare, arWideLandscape,
        arWidePortrait, min_def, abs_of_nonneg, abs_of_nonpos]
    rw [h]
    norm_num [selectTarget]
  have hps : (852, 426) = padScaled 100 50 852 480 := by
    rw [show padScaled 100 50 852 480 = (852, 426) by norm_num [padScaled, truncToward0]; rfl]
  have hmem : (process R0 B0 "480p" true).1.headI ∈ (process R0 B0 "480p" true).1 := by
    simp [process, B0]
  exact C7_pad_border_black R0 B0 "480p" 852 480 852 426 0 27 hsel hps (by decide) (by decide)
    _ hmem 0 0 0 (by decide)

end SmartResizer
